import Mathlib

/-!
Verification of `src/calibre/db/tables.py` (the table-loading layer of the
calibre database backend).  Python objects are shallowly embedded: SQLite row
values become the inductive `PyVal`, Python dicts become insertion-ordered
association lists, fallible Python code returns `Except String`, and the two
external date parsers (`_c_speedup.parse_date` and
`calibre.utils.date.parse_date`) are parameters of the definitions that call
them.
-/

namespace CalibreTables

/-- A Python value as it appears in a SQLite row or an adapter result:
`None`, a string, an integer, a boolean, or an opaque datetime object. -/
inductive PyVal where
  | none
  | str (s : String)
  | int (n : Int)
  | boolV (b : Bool)
  | date (year month day hour minutes seconds tzsecs : Int)
  deriving DecidableEq, Repr

/-- Python truthiness (`bool(v)` / `if v:`): `None`, `""`, `0` and `False`
are falsy, everything else is truthy. -/
def PyVal.truthy : PyVal → Bool
  | .none => false
  | .str s => !(s = "")
  | .int n => !(n = 0)
  | .boolV b => b
  | .date _ _ _ _ _ _ _ => true

/-- The result of the C speedup parser `_c_speedup.parse_date`: the 7-tuple
`(year, month, day, hour, minutes, seconds, tzsecs)`. -/
structure ParsedDate where
  year : Int
  month : Int
  day : Int
  hour : Int
  minutes : Int
  seconds : Int
  tzsecs : Int
  deriving DecidableEq, Repr

/-- `_c_convert_timestamp(val)` from tables.py.

* `fast` models `_c_speedup.parse_date`: it may raise (`Except.error`) or
  return `None` (`Option.none`) or a parsed 7-tuple.
* `pdate` models `calibre.utils.date.parse_date(val, as_utc=...)`, returning
  a datetime `PyVal` or raising; its failure policy is its own.
* `az` models `datetime(year, month, day, hour, minutes, seconds,
  tzinfo=tzoffset(None, tzsecs)).astimezone(local_tz)`.

The code: a falsy `val` returns `None` at once; otherwise the fast parser is
tried on `val.strip()` under a bare `except:` that turns any exception into
`ret = None`; when `ret is None` the original (unstripped) `val` is handed to
`parse_date(val, as_utc=False)`. -/
def c_convert_timestamp
    (fast : String → Except Unit (Option ParsedDate))
    (pdate : String → Bool → Except String PyVal)
    (az : ParsedDate → PyVal)
    (val : PyVal) : Except String PyVal :=
  if val.truthy = false then .ok .none
  else
    match val with
    | .str s =>
        let ret : Option ParsedDate :=
          match fast s.trim with
          | .error _ => Option.none
          | .ok r => r
        match ret with
        | Option.none => pdate s false
        | Option.some p => .ok (az p)
    | _ => .error "AttributeError: object has no attribute strip"

/-- The adapter chosen in `Table.__init__`: the dict
`{'datetime': _c_convert_timestamp, 'bool': bool}` looked up with default
`lambda x: x`, then overridden by the legacy authors lambda when
`name == 'authors'`. -/
inductive AdapterKind where
  | datetime
  | boolean
  | identity
  | authorsLegacy
  deriving DecidableEq, Repr

/-- Which adapter `Table.__init__` installs for a given table name and
declared datatype. -/
def selectAdapter (name datatype : String) : AdapterKind :=
  let base : AdapterKind :=
    if datatype = "datetime" then .datetime
    else if datatype = "bool" then .boolean
    else .identity
  if name = "authors" then .authorsLegacy else base

/-- Python `s.replace(a, b)` for single-character `a` and `b`: every
occurrence of the character `a` in `s` is replaced by `b`. -/
def pyReplaceChar (s : String) (a b : Char) : String :=
  String.mk (s.data.map (fun c => if c = a then b else c))

/-- The legacy authors adapter `lambda x: x.replace('|', ',') if x else None`.
A truthy non-string input would raise `AttributeError` in Python. -/
def authorsLegacyAdapt : PyVal → Except String PyVal
  | .none => .ok .none
  | .str s => if s = "" then .ok .none else .ok (.str (pyReplaceChar s '|' ','))
  | v => if v.truthy then .error "AttributeError: object has no attribute replace"
         else .ok .none

/-- `self.adapt` as installed by `Table.__init__` and applied to one raw
value: dispatches on `selectAdapter name datatype`. Python's builtin `bool`
maps any value to its truthiness (`bool(None) = False`). -/
def tableAdapt
    (fast : String → Except Unit (Option ParsedDate))
    (pdate : String → Bool → Except String PyVal)
    (az : ParsedDate → PyVal)
    (name datatype : String) (v : PyVal) : Except String PyVal :=
  match selectAdapter name datatype with
  | .datetime => c_convert_timestamp fast pdate az v
  | .boolean => .ok (.boolV v.truthy)
  | .identity => .ok v
  | .authorsLegacy => authorsLegacyAdapt v

/-! ## Python dicts as insertion-ordered association lists -/

/-- `k in d` for a Python dict. -/
def dictContains [DecidableEq α] (d : List (α × β)) (k : α) : Bool :=
  d.any (fun p => p.1 = k)

/-- `d[k] = v` for a Python dict: update in place when the key exists,
append at the end otherwise. -/
def dictSet [DecidableEq α] (d : List (α × β)) (k : α) (v : β) : List (α × β) :=
  if dictContains d k then
    d.map (fun p => if p.1 = k then (k, v) else p)
  else d ++ [(k, v)]

/-- `d.get(k)` / `d[k]` lookup for a Python dict. -/
def dictGet [DecidableEq α] (d : List (α × β)) (k : α) : Option β :=
  (d.find? (fun p => p.1 = k)).map (fun p => p.2)

/-- `d.append(x)`: a Python dict has no `append` method, so this raises
`AttributeError` unconditionally.  tables.py calls it on `self.col_book_map`
in every link pass. -/
def dictAppend [DecidableEq α] (_d : List (α × β)) (_x : γ) :
    Except String (List (α × β)) :=
  .error "AttributeError: dict object has no attribute append"

/-! ## ManyToOneTable and ManyToManyTable link passes -/

/-- The maps built by `ManyToOneTable.read`. -/
structure MTOState where
  col_book_map : List (Int × List Int)
  book_col_map : List (Int × Int)
  deriving DecidableEq, Repr

/-- One iteration of the loop in `ManyToOneTable.read_maps` over a link row
`(book, attr)`:
```
if row[1] not in self.col_book_map:
    self.col_book_map[row[1]] = []
self.col_book_map.append(row[0])
self.book_col_map[row[0]] = row[1]
```
-/
def mtoReadMapsRow (st : MTOState) (row : Int × Int) : Except String MTOState := do
  let cbm := if dictContains st.col_book_map row.2 then st.col_book_map
             else dictSet st.col_book_map row.2 []
  let cbm ← dictAppend cbm row.1
  pure { col_book_map := cbm, book_col_map := dictSet st.book_col_map row.1 row.2 }

/-- `ManyToOneTable.read_maps` over the sequence of link rows returned by
`SELECT book, link_column FROM link_table`, starting from the empty maps set
up by `ManyToOneTable.read`. -/
def mtoReadMaps (rows : List (Int × Int)) : Except String MTOState :=
  rows.foldlM mtoReadMapsRow ⟨[], []⟩

/-- The maps built by `ManyToManyTable.read` (forward values are lists). -/
structure MTMState where
  col_book_map : List (Int × List Int)
  book_col_map : List (Int × List Int)
  deriving DecidableEq, Repr

/-- One iteration of the loop in `ManyToManyTable.read_maps` over a link row
`(book, attr)`:
```
if row[1] not in self.col_book_map:
    self.col_book_map[row[1]] = []
self.col_book_map.append(row[0])
if row[0] not in self.book_col_map:
    self.book_col_map[row[0]] = []
self.book_col_map[row[0]].append(row[1])
```
-/
def mtmReadMapsRow (st : MTMState) (row : Int × Int) : Except String MTMState := do
  let cbm := if dictContains st.col_book_map row.2 then st.col_book_map
             else dictSet st.col_book_map row.2 []
  let cbm ← dictAppend cbm row.1
  let bcm := if dictContains st.book_col_map row.1 then st.book_col_map
             else dictSet st.book_col_map row.1 []
  let cur := (dictGet bcm row.1).getD []
  pure { col_book_map := cbm, book_col_map := dictSet bcm row.1 (cur ++ [row.2]) }

/-- `ManyToManyTable.read_maps` over the link rows. -/
def mtmReadMaps (rows : List (Int × Int)) : Except String MTMState :=
  rows.foldlM mtmReadMapsRow ⟨[], []⟩

/-! ## FormatsTable link pass -/

/-- The maps built by `FormatsTable.read` (forward values are
`(format, name)` pairs). -/
structure FormatsState where
  col_book_map : List (String × List Int)
  book_col_map : List (Int × List (String × String))
  deriving DecidableEq, Repr

/-- One iteration of the loop in `FormatsTable.read_maps` over a data row
`(book, format, name)`; rows with `format` null (`row[1] is not None` fails)
are skipped:
```
if row[1] is not None:
    if row[1] not in self.col_book_map:
        self.col_book_map[row[1]] = []
    self.col_book_map.append(row[0])
    if row[0] not in self.book_col_map:
        self.book_col_map[row[0]] = []
    self.book_col_map[row[0]].append((row[1], row[2]))
```
-/
def formatsReadMapsRow (st : FormatsState) (row : Int × Option String × String) :
    Except String FormatsState :=
  match row.2.1 with
  | Option.none => .ok st
  | Option.some fmt => do
      let cbm := if dictContains st.col_book_map fmt then st.col_book_map
                 else dictSet st.col_book_map fmt []
      let cbm ← dictAppend cbm row.1
      let bcm := if dictContains st.book_col_map row.1 then st.book_col_map
                 else dictSet st.book_col_map row.1 []
      let cur := (dictGet bcm row.1).getD []
      pure { col_book_map := cbm,
             book_col_map := dictSet bcm row.1 (cur ++ [(fmt, row.2.2)]) }

/-- `FormatsTable.read_maps` over the rows of
`SELECT book, format, name FROM data`. -/
def formatsReadMaps (rows : List (Int × Option String × String)) :
    Except String FormatsState :=
  rows.foldlM formatsReadMapsRow ⟨[], []⟩

/-! ## AuthorsTable id-map pass -/

/-- The maps built by `AuthorsTable.read_id_maps` from the rows of
`SELECT id, name, sort, link FROM authors`. -/
structure AuthorsState where
  id_map : List (Int × String)
  extra_map : List (Int × String)
  alink_map : List (Int × PyVal)
  deriving DecidableEq, Repr

/-- A row of `SELECT id, name, sort, link FROM authors`:
`(id, name, sort, link)` with `sort` nullable. -/
structure AuthorRow where
  id : Int
  name : String
  sort : Option String
  link : PyVal
  deriving DecidableEq, Repr

/-- One iteration of `AuthorsTable.read_id_maps`:
```
self.id_map[row[0]] = row[1]
self.extra_map[row[0]] = (row[2] if row[2] else
        author_to_author_sort(row[1]))
self.alink_map[row[0]] = row[3]
```
`row[1]` is stored as-is (no call to `self.adapt`); `row[2] if row[2]` is
Python truthiness, so both `NULL` and the empty string fall back to
`author_to_author_sort`, which is external and passed as `a2as`. -/
def authorsReadIdMapsRow (a2as : String → String) (st : AuthorsState)
    (row : AuthorRow) : AuthorsState :=
  { id_map := dictSet st.id_map row.id row.name,
    extra_map := dictSet st.extra_map row.id
      (match row.sort with
       | Option.some s => if s = "" then a2as row.name else s
       | Option.none => a2as row.name),
    alink_map := dictSet st.alink_map row.id row.link }

/-- `AuthorsTable.read_id_maps` over the author rows (starting from the empty
maps set up by `ManyToOneTable.read` and the `self.alink_map = {}` line). -/
def authorsReadIdMaps (a2as : String → String) (rows : List AuthorRow) :
    AuthorsState :=
  rows.foldl (authorsReadIdMapsRow a2as) ⟨[], [], []⟩

/-! ## SizeTable -/

/-- The literal query text executed by `SizeTable.read`. -/
def sizeQueryText : String :=
  "SELECT books.id, (SELECT MAX(uncompressed_size) FROM data WHERE data.book=books.id) FROM books"

/-- SQL `MAX` over a list of values: `NULL` on the empty list, otherwise the
maximum. -/
def sqlMax : List Int → Option Int
  | [] => Option.none
  | x :: xs =>
      match sqlMax xs with
      | Option.none => Option.some x
      | Option.some m => Option.some (max x m)

/-- The `uncompressed_size` values of the data rows belonging to `book`
(`FROM data WHERE data.book=books.id`), in row order. -/
def sizesOf (data : List (Int × Int)) (book : Int) : List Int :=
  (data.filter (fun r => r.1 = book)).map (fun r => r.2)

/-- The row sequence produced by executing `sizeQueryText` against a `books`
table with ids `books` and a `data` table with `(book, uncompressed_size)`
rows `data`: one row per book, carrying the correlated-subquery `MAX`. -/
def sizeQueryRows (books : List Int) (data : List (Int × Int)) :
    List (Int × Option Int) :=
  books.map (fun b => (b, sqlMax (sizesOf data b)))

/-- `SizeTable.read`: `self.book_col_map[row[0]] = self.adapt(row[1])` over
the query rows.  The size column's metadata datatype is neither `datetime`
nor `bool` and the table name is not `authors`, so `self.adapt` is the
identity `lambda x: x` (see `selectAdapter`). -/
def sizeRead (books : List Int) (data : List (Int × Int)) :
    List (Int × Option Int) :=
  (sizeQueryRows books data).foldl
    (fun m r => dictSet m r.1 (id r.2)) []

/-- The name the author rows store for id `i` after a left-to-right pass:
the name column of the last row carrying that id, raw. -/
def lastNameFor (rows : List AuthorRow) (i : Int) : Option String :=
  rows.foldl (fun acc r => if r.id = i then Option.some r.name else acc)
    Option.none

/-! ## Dictionary lemmas -/

universe u v

/-- Looking a key up after a `dictSet`: the new value at the written key,
the old binding elsewhere. -/
theorem dictGet_dictSet {α : Type u} {β : Type v} [DecidableEq α]
    (d : List (α × β)) (k i : α) (v : β) :
    dictGet (dictSet d k v) i = if i = k then Option.some v else dictGet d i := by
  unfold dictSet dictGet dictContains
  by_cases hc : d.any (fun p => decide (p.1 = k)) = true
  · rw [if_pos hc, List.find?_map]
    by_cases hik : i = k
    · subst hik
      have hpred : ((fun p : α × β => decide (p.1 = i)) ∘
          (fun p : α × β => if p.1 = i then (i, v) else p))
            = fun p : α × β => decide (p.1 = i) := by
        funext p
        by_cases h : p.1 = i <;> simp [h]
      rw [hpred]
      rcases List.any_eq_true.mp hc with ⟨q, hq, hqk⟩
      have hsome : (List.find? (fun p : α × β => decide (p.1 = i)) d).isSome := by
        rw [List.find?_isSome]
        exact ⟨q, hq, hqk⟩
      obtain ⟨r, hr⟩ := Option.isSome_iff_exists.mp hsome
      have hrk : r.1 = i := by simpa using List.find?_some hr
      rw [hr]
      simp [hrk, if_pos rfl]
    · have hpred : ((fun p : α × β => decide (p.1 = i)) ∘
          (fun p : α × β => if p.1 = k then (k, v) else p))
            = fun p : α × β => decide (p.1 = i) := by
        funext p
        by_cases h : p.1 = k
        · simp [h, fun hh : k = i => hik hh.symm]
        · simp [h]
      rw [hpred, if_neg hik]
      cases hf : List.find? (fun p : α × β => decide (p.1 = i)) d with
      | none => simp
      | some q =>
        have hqi : q.1 = i := by simpa using List.find?_some hf
        have hqk : ¬ q.1 = k := fun h => hik (hqi ▸ h ▸ rfl)
        simp [hqk]
  · rw [if_neg hc, List.find?_append]
    by_cases hik : i = k
    · subst hik
      have hnone : List.find? (fun p : α × β => decide (p.1 = i)) d = Option.none := by
        rw [List.find?_eq_none]
        intro p hp
        simp only [decide_eq_true_eq]
        intro h
        exact hc (List.any_eq_true.mpr ⟨p, hp, by simpa using h⟩)
      rw [hnone]
      simp
    · have hki : ¬ (k = i) := fun h => hik h.symm
      have hone : List.find? (fun p : α × β => decide (p.1 = i)) [(k, v)] = Option.none := by
        simp [List.find?, hki]
      rw [hone]
      simp [if_neg hik]

/-- A fold of `dictSet`s writing `f k` at each key `k`: any key of the fold
(or already bound to its `f`-value) ends up bound to its `f`-value. -/
theorem dictGet_foldl_set {α : Type u} {β : Type v} [DecidableEq α]
    (f : α → β) (ks : List α) (m : List (α × β)) (b : α)
    (hb : b ∈ ks ∨ dictGet m b = Option.some (f b)) :
    dictGet (ks.foldl (fun m k => dictSet m k (f k)) m) b = Option.some (f b) := by
  induction ks generalizing m with
  | nil =>
    rcases hb with hb | hb
    · simp at hb
    · simpa using hb
  | cons k ks ih =>
    rw [List.foldl_cons]
    apply ih
    rcases hb with hb | hb
    · rcases List.mem_cons.mp hb with rfl | h
      · right
        rw [dictGet_dictSet]
        simp
      · left
        exact h
    · right
      rw [dictGet_dictSet]
      by_cases hbk : b = k
      · subst hbk
        simp
      · simpa [hbk] using hb

/-- `sqlMax` is `NULL` exactly on the empty list. -/
theorem sqlMax_eq_none_iff (l : List Int) : sqlMax l = Option.none ↔ l = [] := by
  cases l with
  | nil => simp [sqlMax]
  | cons x xs =>
    simp only [sqlMax]
    cases sqlMax xs <;> simp

/-- A non-`NULL` `sqlMax` result is a member of the list and an upper bound
of it. -/
theorem sqlMax_spec (l : List Int) (v : Int) (h : sqlMax l = Option.some v) :
    v ∈ l ∧ ∀ s ∈ l, s ≤ v := by
  induction l generalizing v with
  | nil => simp [sqlMax] at h
  | cons x xs ih =>
    simp only [sqlMax] at h
    cases hx : sqlMax xs with
    | none =>
      rw [hx] at h
      simp only [Option.some.injEq] at h
      subst h
      have hxs : xs = [] := (sqlMax_eq_none_iff xs).mp hx
      subst hxs
      simp
    | some m =>
      rw [hx] at h
      simp only [Option.some.injEq] at h
      subst h
      obtain ⟨hm, hb⟩ := ih m hx
      constructor
      · rcases max_choice x m with hmax | hmax
        · rw [hmax]
          exact List.mem_cons_self x xs
        · rw [hmax]
          exact List.mem_cons_of_mem x hm
      · intro s hs
        rcases List.mem_cons.mp hs with rfl | hs
        · exact le_max_left _ _
        · exact le_trans (hb s hs) (le_max_right x m)

/-- The `id_map` built by the authors id-map pass, looked up at `i`, is the
left fold that keeps the last raw name seen for `i`. -/
theorem authors_id_map_foldl (a2as : String → String) (rows : List AuthorRow)
    (st : AuthorsState) (i : Int) :
    dictGet (rows.foldl (authorsReadIdMapsRow a2as) st).id_map i
      = rows.foldl (fun acc r => if r.id = i then Option.some r.name else acc)
          (dictGet st.id_map i) := by
  induction rows generalizing st with
  | nil => rfl
  | cons r rows ih =>
    rw [List.foldl_cons, List.foldl_cons, ih]
    have hstep : dictGet (authorsReadIdMapsRow a2as st r).id_map i
        = if r.id = i then Option.some r.name else dictGet st.id_map i := by
      show dictGet (dictSet st.id_map r.id r.name) i = _
      rw [dictGet_dictSet]
      by_cases h : i = r.id
      · simp [h]
      · have h2 : ¬ (r.id = i) := fun hh => h hh.symm
        simp [h, h2]
    rw [hstep]

/-! ## Claim theorems -/

/-- Claim C1 (code bug): `ManyToManyTable.read_maps` cannot establish the
bidirectional invariant `b ∈ col_book_map[a] ↔ a ∈ book_col_map[b]` because
it raises `AttributeError` on every link row: the line
`self.col_book_map.append(row[0])` calls `append` on the dict itself instead
of on the per-key list `self.col_book_map[row[1]]` it just created.  Any
non-empty sequence of link rows makes the load fail, so the inverse index is
never populated. -/
theorem mtm_link_pass_raises (rows : List (Int × Int)) (h : ¬ (rows = [])) :
    mtmReadMaps rows
      = Except.error "AttributeError: dict object has no attribute append" := by
  cases rows with
  | nil => exact absurd rfl h
  | cons r rest => rfl

/-- Witness for C1: a single link row `(book 1, attr 2)` already raises. -/
theorem mtm_link_pass_raises_witness :
    mtmReadMaps [(1, 2)]
      = Except.error "AttributeError: dict object has no attribute append" :=
  mtm_link_pass_raises [(1, 2)] (by simp)

/-- Claim C2 (code bug): `ManyToOneTable.read_maps` never reaches the state
where `book_col_map[b] = a` implies `b ∈ col_book_map[a]`: the line
`self.col_book_map.append(row[0])` raises `AttributeError` (a dict has no
`append`) before `book_col_map[row[0]] = row[1]` executes, so any non-empty
sequence of link rows makes the load fail. -/
theorem mto_link_pass_raises (rows : List (Int × Int)) (h : ¬ (rows = [])) :
    mtoReadMaps rows
      = Except.error "AttributeError: dict object has no attribute append" := by
  cases rows with
  | nil => exact absurd rfl h
  | cons r rest => rfl

/-- Witness for C2: a single link row `(book 1, attr 2)` already raises. -/
theorem mto_link_pass_raises_witness :
    mtoReadMaps [(1, 2)]
      = Except.error "AttributeError: dict object has no attribute append" :=
  mto_link_pass_raises [(1, 2)] (by simp)

/-- Claim C4 (code bug): `FormatsTable.read_maps` does skip rows whose
format is null (an all-null-format row list loads with both maps empty), but
as soon as one row has a non-null format the same dict-`append` slip raises
`AttributeError`, so the claimed example
`[(1, EPUB, book.epub), (1, PDF, book.pdf)]` cannot produce
`forward[1] = [(EPUB, book.epub), (PDF, book.pdf)]` — the load fails. -/
theorem formats_link_pass (rows : List (Int × Option String × String)) :
    ((∀ r ∈ rows, r.2.1 = Option.none) →
        formatsReadMaps rows = Except.ok ⟨[], []⟩) ∧
    ((∃ r ∈ rows, ¬ (r.2.1 = Option.none)) →
        formatsReadMaps rows
          = Except.error "AttributeError: dict object has no attribute append") := by
  induction rows with
  | nil =>
    constructor
    · intro _
      rfl
    · intro h
      simp at h
  | cons r rest ih =>
    constructor
    · intro h
      have hr : r.2.1 = Option.none := h r (List.mem_cons_self r rest)
      obtain ⟨b, f, n⟩ := r
      simp only at hr
      subst hr
      show formatsReadMaps rest = _
      exact ih.1 (fun q hq => h q (List.mem_cons_of_mem _ hq))
    · intro h
      obtain ⟨b, f, n⟩ := r
      cases f with
      | none =>
        show formatsReadMaps rest = _
        apply ih.2
        rcases h with ⟨q, hq, hqf⟩
        rcases List.mem_cons.mp hq with rfl | hq
        · simp at hqf
        · exact ⟨q, hq, hqf⟩
      | some fmt => rfl

/-- Witness for C4: an all-null-format row list loads empty, and the
claimed `(EPUB, PDF)` example raises instead of building the maps. -/
theorem formats_link_pass_witness :
    formatsReadMaps [(1, Option.none, "x")] = Except.ok ⟨[], []⟩ ∧
    formatsReadMaps
        [(1, Option.some "EPUB", "book.epub"), (1, Option.some "PDF", "book.pdf")]
      = Except.error "AttributeError: dict object has no attribute append" :=
  ⟨(formats_link_pass _).1 (by simp),
   (formats_link_pass _).2 ⟨(1, Option.some "EPUB", "book.epub"), by simp, by simp⟩⟩

/-- Claim C10 (code bug): the last-write-wins assignment
`self.book_col_map[row[0]] = row[1]` in `ManyToOneTable.read_maps` is
unreachable: on the first of the duplicate rows `[(1, 2), (1, 3)]` the
preceding `self.col_book_map.append(row[0])` raises `AttributeError`, so
`book_col_map[1]` is never set to anything, let alone to the last attr 3. -/
theorem mto_forward_last_write_unreachable :
    mtoReadMaps [(1, 2), (1, 3)]
      = Except.error "AttributeError: dict object has no attribute append" := rfl

/-- Counterexample for C3: the adapter installed for datatype `bool` on a
table not named `authors` is Python's builtin `bool`, and `bool(None)` is
`False`, not `None` — refuting "maps a null raw value to null". -/
theorem bool_adapter_null_counterexample :
    tableAdapt (fun _ => Except.error ()) (fun _ _ => Except.error "e")
        (fun _ => PyVal.none) "tags" "bool" PyVal.none
      = Except.ok (PyVal.boolV false) ∧
    ¬ (Except.ok (PyVal.boolV false) = (Except.ok PyVal.none : Except String PyVal)) := by
  constructor
  · rfl
  · intro h
    simp at h

/-- Claim C3 (amended): for datatype `bool` on a table not named `authors`,
the installed adapter maps every raw value — null included — to its Python
truthiness as a boolean; in particular a null raw value maps to `False`,
not to null. -/
theorem bool_adapter_truthiness (fast : String → Except Unit (Option ParsedDate))
    (pdate : String → Bool → Except String PyVal) (az : ParsedDate → PyVal)
    (name : String) (h : ¬ (name = "authors")) (v : PyVal) :
    tableAdapt fast pdate az name "bool" v = Except.ok (PyVal.boolV v.truthy) := by
  simp only [tableAdapt, selectAdapter]
  rw [if_neg h]
  rfl

/-- Witness for C3 (amended): on the `tags` table the bool adapter maps the
raw value `3` to `True`. -/
theorem bool_adapter_truthiness_witness :
    tableAdapt (fun _ => Except.error ()) (fun _ _ => Except.error "e")
        (fun _ => PyVal.none) "tags" "bool" (PyVal.int 3)
      = Except.ok (PyVal.boolV true) :=
  bool_adapter_truthiness _ _ _ "tags" (by simp) (PyVal.int 3)

/-- Claim C5: `_c_convert_timestamp` returns `None` on any falsy raw value
without consulting either parser (the result is independent of `fast`,
`pdate` and `az`); on a non-empty string, whenever the fast parser raises or
returns no result, the original unstripped value is handed to
`parse_date(val, as_utc=False)` and that call's result — including any
failure — is returned unchanged. -/
theorem timestamp_adapter_policy :
    (∀ fast pdate az (v : PyVal), v.truthy = false →
        c_convert_timestamp fast pdate az v = Except.ok PyVal.none) ∧
    (∀ fast pdate az (s : String), ¬ (s = "") →
        (∀ r, ¬ (fast s.trim = Except.ok (Option.some r))) →
        c_convert_timestamp fast pdate az (PyVal.str s) = pdate s false) := by
  constructor
  · intro fast pdate az v h
    simp [c_convert_timestamp, h]
  · intro fast pdate az s hs hfast
    have hred : c_convert_timestamp fast pdate az (PyVal.str s)
        = (match (match fast s.trim with
                  | Except.error _ => (Option.none : Option ParsedDate)
                  | Except.ok r => r) with
           | Option.none => pdate s false
           | Option.some p => Except.ok (az p)) := by
      unfold c_convert_timestamp
      rw [if_neg (by simp [PyVal.truthy, hs])]
    rw [hred]
    cases h2 : fast s.trim with
    | error e => rfl
    | ok r =>
      cases r with
      | none => rfl
      | some p => exact absurd h2 (hfast p)

/-- Witness for C5: a `None` raw value adapts to `None` even under parsers
that always fail, and on `"20xx"` with a failing fast parser the strict
flexible parser's error is propagated unchanged. -/
theorem timestamp_adapter_policy_witness :
    c_convert_timestamp (fun _ => Except.error ())
        (fun _ _ => Except.error "invalid date") (fun _ => PyVal.none)
        PyVal.none
      = Except.ok PyVal.none ∧
    c_convert_timestamp (fun _ => Except.error ())
        (fun _ _ => Except.error "invalid date") (fun _ => PyVal.none)
        (PyVal.str "20xx")
      = Except.error "invalid date" :=
  ⟨timestamp_adapter_policy.1 _ _ _ PyVal.none rfl,
   timestamp_adapter_policy.2 _ _ _ "20xx" (by simp)
     (fun r h => by simp at h)⟩

/-- Claim C6: the adapter installed for the table named `authors` maps any
non-empty string to the same string with every `|` replaced by `,`, and maps
null and the empty string to `None`; in particular `"Smith|Jones"` adapts to
`"Smith,Jones"`. -/
theorem authors_adapter_spec :
    (∀ fast pdate az (s : String), ¬ (s = "") →
        tableAdapt fast pdate az "authors" "text" (PyVal.str s)
          = Except.ok (PyVal.str (pyReplaceChar s '|' ','))) ∧
    (∀ fast pdate az,
        tableAdapt fast pdate az "authors" "text" PyVal.none
            = Except.ok PyVal.none ∧
        tableAdapt fast pdate az "authors" "text" (PyVal.str "")
            = Except.ok PyVal.none ∧
        tableAdapt fast pdate az "authors" "text" (PyVal.str "Smith|Jones")
            = Except.ok (PyVal.str "Smith,Jones")) := by
  constructor
  · intro fast pdate az s hs
    show authorsLegacyAdapt (PyVal.str s) = _
    simp [authorsLegacyAdapt, hs]
  · intro fast pdate az
    refine ⟨rfl, rfl, ?_⟩
    show authorsLegacyAdapt (PyVal.str "Smith|Jones") = _
    rw [show authorsLegacyAdapt (PyVal.str "Smith|Jones")
        = Except.ok (PyVal.str (pyReplaceChar "Smith|Jones" '|' ',')) from rfl,
      show pyReplaceChar "Smith|Jones" '|' ',' = "Smith,Jones" from by decide]

/-- Witness for C6: the general non-empty-string clause applied to
`"Smith|Jones"`. -/
theorem authors_adapter_spec_witness :
    tableAdapt (fun _ => Except.error ()) (fun _ _ => Except.error "e")
        (fun _ => PyVal.none) "authors" "text" (PyVal.str "Smith|Jones")
      = Except.ok (PyVal.str (pyReplaceChar "Smith|Jones" '|' ',')) :=
  authors_adapter_spec.1 _ _ _ "Smith|Jones" (by simp)

/-- Claim C8: for a table named `authors` the name check overrides the
datatype dispatch — whatever the declared datatype (including `datetime` and
`bool`), the installed adapter is the legacy pipe-to-comma lambda, so the
datetime and bool adapters are never used for that table. -/
theorem authors_name_overrides_datatype :
    (∀ dt : String, selectAdapter "authors" dt = AdapterKind.authorsLegacy) ∧
    ∀ fast pdate az (dt : String) (v : PyVal),
      tableAdapt fast pdate az "authors" dt v = authorsLegacyAdapt v :=
  ⟨fun _ => rfl, fun _ _ _ _ _ => rfl⟩

/-- Claim C7: the size query aggregates at the source (its text contains the
correlated `MAX(uncompressed_size)` subquery); after `SizeTable.read`, every
book listed in `books` is mapped to the SQL `MAX` of its data-row sizes,
and a non-`NULL` stored value is one of that book's sizes and an upper
bound of all of them. -/
theorem size_forward_is_query_max :
    List.IsInfix "MAX(uncompressed_size)".data sizeQueryText.data ∧
    (∀ (books : List Int) (data : List (Int × Int)) (b : Int), b ∈ books →
        dictGet (sizeRead books data) b = Option.some (sqlMax (sizesOf data b))) ∧
    (∀ (data : List (Int × Int)) (b : Int) (v : Int),
        sqlMax (sizesOf data b) = Option.some v →
        v ∈ sizesOf data b ∧ ∀ s ∈ sizesOf data b, s ≤ v) := by
  refine ⟨by decide, ?_, ?_⟩
  · intro books data b hb
    unfold sizeRead sizeQueryRows
    rw [List.foldl_map]
    exact dictGet_foldl_set (fun b => sqlMax (sizesOf data b)) books [] b (Or.inl hb)
  · intro data b v h
    exact sqlMax_spec _ v h

/-- Witness for C7: stored sizes 100, 250, 50 for book 7 yield
`forward[7] = 250`. -/
theorem size_forward_is_query_max_witness :
    dictGet (sizeRead [7] [(7, 100), (7, 250), (7, 50)]) 7
      = Option.some (Option.some 250) := by
  have h := size_forward_is_query_max.2.1 [7] [(7, 100), (7, 250), (7, 50)] 7
    (by simp)
  exact h.trans (by decide)

/-- Claim C9: `AuthorsTable.read_id_maps` stores the raw name column without
calling `self.adapt`: the `id_map` lookup is exactly the last raw name seen
for the id, so `"Smith|Jones"` is stored unchanged, even though the legacy
adapter installed for the `authors` table would have rewritten it to
`"Smith,Jones"`. -/
theorem authors_id_map_stores_raw_name :
    (∀ (a2as : String → String) (rows : List AuthorRow) (i : Int),
        dictGet (authorsReadIdMaps a2as rows).id_map i = lastNameFor rows i) ∧
    (authorsReadIdMaps (fun s => s)
        [⟨1, "Smith|Jones", Option.none, PyVal.none⟩]).id_map
      = [(1, "Smith|Jones")] ∧
    authorsLegacyAdapt (PyVal.str "Smith|Jones")
      = Except.ok (PyVal.str "Smith,Jones") ∧
    ¬ ("Smith,Jones" = "Smith|Jones") := by
  refine ⟨?_, by decide, ?_, by decide⟩
  · intro a2as rows i
    unfold authorsReadIdMaps lastNameFor
    rw [authors_id_map_foldl]
    rfl
  · rw [show authorsLegacyAdapt (PyVal.str "Smith|Jones")
        = Except.ok (PyVal.str (pyReplaceChar "Smith|Jones" '|' ',')) from rfl,
      show pyReplaceChar "Smith|Jones" '|' ',' = "Smith,Jones" from by decide]

end CalibreTables
